import Mathlib

/-!
Shallow embedding of `diun-notif.py`, a webhook-to-desktop-notification
bridge.  The program has one request handler (`WebhookHandler.do_POST`),
one dispatcher (`send_notification`) and a static configuration.

Modelling conventions:
* JSON values produced by Python's `json.loads` are modelled by the
  inductive `Json` below (numbers as `Int`; no claim involves floats).
* The JSON parser itself is external: `do_POST` is modelled as a function
  of the parse outcome (`Option Json`, `none` = `json.JSONDecodeError`).
* The D-Bus session call made inside `send_notification` is external: its
  behaviour is a parameter `dbus : Except String Unit` (`ok` = the call
  succeeds, `error e` = it raises an exception rendering as the string `e`).
* A Python exception escaping `do_POST` (e.g. `AttributeError` from calling
  `.get` on a non-dict, or `.split` on a non-str) is modelled as
  `Outcome.crash`: the HTTP framework then sends no response for this
  request.
-/

/-- Model of a decoded JSON value as returned by Python's `json.loads`
(numbers restricted to integers, which covers every claim). -/
inductive Json where
  | null : Json
  | bool : Bool → Json
  | num : Int → Json
  | str : String → Json
  | arr : List Json → Json
  | obj : List (String × Json) → Json

/-- Model of Python `dict.get` on a dict built by `json.loads` from an
association list: with duplicate keys the last binding wins, as in CPython's
JSON decoder. -/
def dictGet (fields : List (String × Json)) (k : String) : Option Json :=
  match fields with
  | [] => none
  | (k2, v) :: rest =>
    match dictGet rest k with
    | some r => some r
    | none => if k2 = k then some v else none

/-- Python truthiness of a `json.loads`-produced value. -/
def truthy : Json → Bool
  | Json.null => false
  | Json.bool b => b
  | Json.num n => !(n == 0)
  | Json.str s => !(s == "")
  | Json.arr xs => !xs.isEmpty
  | Json.obj fs => !fs.isEmpty

/-- Python test `payload.get("status") == "new"`: equality of an arbitrary
decoded JSON value with the string `"new"` holds exactly for the equal
string. -/
def statusIsNew (fields : List (String × Json)) : Bool :=
  match dictGet fields "status" with
  | some (Json.str s) => s == "new"
  | _ => false

/-- Python truthiness of an `Optional[str]` value (`None` and `""` are
falsy). -/
def strTruthy : Option String → Bool
  | none => false
  | some s => !(s == "")

/-- Model of Python `str.split(sep)` for a single-character separator,
acting on the character list of the string.  Like Python's `split` with an
explicit separator it returns `[""]` on the empty string and keeps empty
fields. -/
def splitChar (sep : Char) : List Char → List (List Char)
  | [] => [[]]
  | c :: rest =>
    if c = sep then
      [] :: splitChar sep rest
    else
      match splitChar sep rest with
      | [] => [[c]]
      | h :: t => (c :: h) :: t

/-- Model of Python `lst[-1]` on the (always non-empty) result of
`str.split`. -/
def splitLast (sep : Char) (s : String) : String :=
  String.mk ((splitChar sep s.toList).getLastD [])

/-- Model of Python `lst[0]` on the (always non-empty) result of
`str.split`. -/
def splitHead (sep : Char) (s : String) : String :=
  String.mk ((splitChar sep s.toList).headD [])

/-- Container-name derivation from the image reference, from
`do_POST`: `base = image.split("/")[-1]; container = base.split(":")[0];
if not container: container = "unknown"`. -/
def containerFromImage (image : String) : String :=
  let base := splitLast (Char.ofNat 47) image
  let container := splitHead (Char.ofNat 58) base
  if container = "" then "unknown" else container

/-- Container resolution from `do_POST`: use `metadata["ctn_names"]` when
`metadata` is a dict and `metadata.get("ctn_names")` is truthy, else derive
from the image string.  The result is the Python value assigned to
`container` (a non-string when `ctn_names` is a truthy non-string). -/
def resolveContainer (image : String) (metadata : Option Json) : Json :=
  match metadata with
  | some (Json.obj m) =>
    match dictGet m "ctn_names" with
    | some v => if truthy v then v else Json.str (containerFromImage image)
    | none => Json.str (containerFromImage image)
  | _ => Json.str (containerFromImage image)

/-- Version resolution from `do_POST`:
`version = image.split(":")[-1] if ":" in image else "unknown"`
(Python substring test with a one-character needle is character
membership). -/
def resolveVersion (image : String) : String :=
  if Char.ofNat 58 ∈ image.toList then splitLast (Char.ofNat 58) image
  else "unknown"

/-- Escape of a quote character and backslash, used by the model of
Python `repr` on strings. -/
def pyEscape (q : Char) (s : String) : String :=
  String.mk (s.toList.foldr
    (fun c acc => if c = q ∨ c = Char.ofNat 92 then Char.ofNat 92 :: c :: acc else c :: acc) [])

/-- Model of Python `repr` of a string: single quotes, unless the string
contains a single quote and no double quote.  (Escaping of non-printable
characters is not modelled; no claim exercises it.) -/
def pyQuote (s : String) : String :=
  if Char.ofNat 39 ∈ s.toList ∧ Char.ofNat 34 ∉ s.toList then
    String.mk [Char.ofNat 34] ++ pyEscape (Char.ofNat 34) s ++ String.mk [Char.ofNat 34]
  else
    String.mk [Char.ofNat 39] ++ pyEscape (Char.ofNat 39) s ++ String.mk [Char.ofNat 39]

mutual
/-- Model of Python `repr` on `json.loads`-produced values. -/
def pyRepr : Json → String
  | Json.null => "None"
  | Json.bool true => "True"
  | Json.bool false => "False"
  | Json.num n => toString n
  | Json.str s => pyQuote s
  | Json.arr xs => "[" ++ pyReprSeq xs ++ "]"
  | Json.obj fs => "\x7b" ++ pyReprFields fs ++ "\x7d"

/-- Comma-separated `repr` of list elements. -/
def pyReprSeq : List Json → String
  | [] => ""
  | [x] => pyRepr x
  | x :: y :: rest => pyRepr x ++ ", " ++ pyReprSeq (y :: rest)

/-- Comma-separated `repr` of dict items. -/
def pyReprFields : List (String × Json) → String
  | [] => ""
  | [(k, v)] => pyQuote k ++ ": " ++ pyRepr v
  | (k, v) :: f :: rest => pyQuote k ++ ": " ++ pyRepr v ++ ", " ++ pyReprFields (f :: rest)
end

/-- Model of Python `str()` (as used by an f-string) on a
`json.loads`-produced value. -/
def pyStr : Json → String
  | Json.str s => s
  | v => pyRepr v

/-- Value of a D-Bus hint, from `send_notification`: `dbus.Boolean`,
`dbus.Byte` or `dbus.String`, each at variant level 1. -/
inductive HintValue where
  | bool : Bool → HintValue
  | byte : Nat → HintValue
  | str : String → HintValue
deriving DecidableEq, Repr

/-- Hint dictionary built by `send_notification` (Python dicts preserve
insertion order, hence a list): the three fixed hints, then `sound-name`
if `sound_name` is truthy, then `sound-file` if `sound_file` is truthy. -/
def buildHints (urgency : Nat) (desktop_entry : String)
    (sound_name sound_file : Option String) : List (String × HintValue) :=
  let hints := [("transient", HintValue.bool false),
                ("urgency", HintValue.byte urgency),
                ("desktop-entry", HintValue.str desktop_entry)]
  let hints :=
    match sound_name with
    | some s => if s ≠ "" then hints ++ [("sound-name", HintValue.str s)] else hints
    | none => hints
  match sound_file with
  | some s => if s ≠ "" then hints ++ [("sound-file", HintValue.str s)] else hints
  | none => hints

/-- Arguments of the `interface.Notify` call made by `send_notification`. -/
structure NotifyCall where
  app_name : String
  replaces_id : Nat
  icon : String
  summary : String
  body : String
  actions : List String
  hints : List (String × HintValue)
  timeout : Int
deriving DecidableEq, Repr

/-- Static configuration held as class variables of `WebhookHandler`
(set once by `main`). -/
structure Config where
  app_name : String
  icon : String
  timeout : Int
  urgency_int : Nat
  desktop_entry : String
  sound_name : Option String
  sound_file : Option String
deriving DecidableEq, Repr

/-- Urgency mapping `URGENCY_MAP = {"low": 0, "normal": 1, "critical": 2}`. -/
def URGENCY_MAP (s : String) : Option Nat :=
  if s = "low" then some 0
  else if s = "normal" then some 1
  else if s = "critical" then some 2
  else none

/-- Default configuration of `WebhookHandler` (module-level `DEFAULT_*`
constants; `URGENCY_MAP[DEFAULT_URGENCY] = 1`). -/
def defaultConfig : Config :=
  ⟨"DIUN", "docker-desktop", 5000, (URGENCY_MAP "normal").getD 0,
   "diun-notif", some "dialog-information", none⟩

/-- Notify request `send_notification` issues for a given summary and
body: app name, `replaces_id = 0`, icon, summary, body, no actions, the
built hints, and the configured timeout. -/
def mkNotifyCall (cfg : Config) (summary body : String) : NotifyCall :=
  ⟨cfg.app_name, 0, cfg.icon, summary, body, [],
   buildHints cfg.urgency_int cfg.desktop_entry cfg.sound_name cfg.sound_file,
   cfg.timeout⟩

/-- Observable side effects of one request: `send_notification`
invocations (recorded whether or not the D-Bus call then fails), stdout
lines and stderr lines. -/
structure Effects where
  dispatched : List NotifyCall
  stdout : List String
  stderr : List String
deriving DecidableEq, Repr

/-- Outcome of `do_POST`: an HTTP response with side effects, or an
uncaught Python exception escaping the handler (no response is sent). -/
inductive Outcome where
  | response : Nat → String → Effects → Outcome
  | crash : String → Effects → Outcome
deriving DecidableEq, Repr

/-- Sound part of the success log line:
`f" (sound: {self.sound_name or self.sound_file})"` when
`self.sound_name or self.sound_file` is truthy, else the empty string. -/
def soundInfo (cfg : Config) : String :=
  match (if strTruthy cfg.sound_name then cfg.sound_name else cfg.sound_file) with
  | some s => if s ≠ "" then " (sound: " ++ s ++ ")" else ""
  | none => ""

/-- Stdout line printed after a successful dispatch:
`f"Notification sent{sound_info}: {title} - {body}"`. -/
def sentLog (cfg : Config) (title body : String) : String :=
  "Notification sent" ++ soundInfo cfg ++ ": " ++ title ++ " - " ++ body

/-- Notification body built in the `"new"` branch of `do_POST`:
`f"Update Available for Container: {container} Image -> new version: {version}"`
with the resolved container value formatted by the f-string and the
resolved version string. -/
def newBody (image : String) (metadata : Option Json) : String :=
  "Update Available for Container: " ++ pyStr (resolveContainer image metadata) ++
    " Image -> new version: " ++ resolveVersion image

/-- Branch of `do_POST` for `payload.get("status") == "new"`: resolve
image, container and version, format the notification, call
`send_notification` under `try/except Exception` (a failure is printed to
stderr), then fall through to `send_response(200)` / body `"OK"`.  A
non-string `image` value raises `AttributeError` at `image.split("/")`,
which is not caught. -/
def handleNew (cfg : Config) (fields : List (String × Json))
    (dbus : Except String Unit) : Outcome :=
  match (dictGet fields "image").getD (Json.str "") with
  | Json.str image =>
    let title := "Docker Image Update"
    let body := newBody image (dictGet fields "metadata")
    let call := mkNotifyCall cfg title body
    match dbus with
    | Except.ok _ => Outcome.response 200 "OK" ⟨[call], [sentLog cfg title body], []⟩
    | Except.error e =>
      Outcome.response 200 "OK" ⟨[call], [], ["D‑Bus error: " ++ e]⟩
  | _ => Outcome.crash "AttributeError" ⟨[], [], []⟩

/-- Model of `WebhookHandler.do_POST` applied to the JSON parse outcome of
the request body.  `none`: `json.JSONDecodeError` was raised, answered by
`400` / `"Invalid JSON"`.  A non-dict payload raises `AttributeError` at
`payload.get("status")` (not caught, so no response).  Otherwise the event
is handled and the response is `200` / `"OK"`; a non-"new" status is only
logged. -/
def doPOST (cfg : Config) (parsed : Option Json) (dbus : Except String Unit) : Outcome :=
  match parsed with
  | none => Outcome.response 400 "Invalid JSON" ⟨[], [], []⟩
  | some (Json.obj fields) =>
    if statusIsNew fields then
      handleNew cfg fields dbus
    else
      Outcome.response 200 "OK" ⟨[], ["Ignored non‑new status"], []⟩
  | some _ => Outcome.crash "AttributeError" ⟨[], [], []⟩

/-- List of `send_notification` invocations an outcome carries. -/
def outDispatched : Outcome → List NotifyCall
  | Outcome.response _ _ eff => eff.dispatched
  | Outcome.crash _ eff => eff.dispatched

/-- HTTP status and body of an outcome, `none` when the handler crashed
and no response was sent. -/
def respCodeBody : Outcome → Option (Nat × String)
  | Outcome.response c b _ => some (c, b)
  | Outcome.crash _ _ => none

/-- Stdout lines of an outcome. -/
def outStdout : Outcome → List String
  | Outcome.response _ _ eff => eff.stdout
  | Outcome.crash _ eff => eff.stdout

/-- Stderr lines of an outcome. -/
def outStderr : Outcome → List String
  | Outcome.response _ _ eff => eff.stderr
  | Outcome.crash _ eff => eff.stderr

/-- Test for an uncaught exception escaping the handler. -/
def isCrash : Outcome → Bool
  | Outcome.response _ _ _ => false
  | Outcome.crash _ _ => true

/-- Condition under which `do_POST` uses `metadata["ctn_names"]` as the
container: `isinstance(metadata, dict) and metadata.get("ctn_names")`. -/
def hasTruthyCtn : Option Json → Bool
  | some (Json.obj m) =>
    match dictGet m "ctn_names" with
    | some v => truthy v
    | none => false
  | _ => false

/-!
Spec-side definitions.  These are written from the specification's words
("the path segment after the last `/`", "the tag portion after the last
`:`", "stripping any `:`-delimited tag suffix") to be compared against the
split-based computations of the source.
-/

/-- Longest suffix of a string containing no occurrence of `sep` (the
whole string when `sep` does not occur): the "segment after the last"
`sep`. -/
def afterLastChar (sep : Char) (s : String) : String :=
  String.mk ((s.toList.reverse.takeWhile (· != sep)).reverse)

/-- Longest prefix of a string containing no occurrence of `sep`: the
string with "any `sep`-delimited suffix stripped". -/
def beforeFirstChar (sep : Char) (s : String) : String :=
  String.mk (s.toList.takeWhile (· != sep))

/-- Container-name derivation in the specification's words: the path
segment after the last `/`, with any `:`-delimited tag suffix stripped,
`"unknown"` when the result is empty. -/
def spec_containerFromImage (image : String) : String :=
  let stripped := beforeFirstChar (Char.ofNat 58) (afterLastChar (Char.ofNat 47) image)
  if stripped = "" then "unknown" else stripped

/-!
Characterisation of `splitChar` in terms of `takeWhile`.
-/

theorem splitChar_ne_nil (sep : Char) (l : List Char) : splitChar sep l ≠ [] := by
  induction l with
  | nil => simp [splitChar]
  | cons c rest ih =>
    simp only [splitChar]
    split
    · simp
    · rcases h : splitChar sep rest with _ | ⟨a, t⟩ <;> simp

theorem splitChar_of_not_mem (sep : Char) (l : List Char) (h : sep ∉ l) :
    splitChar sep l = [l] := by
  induction l with
  | nil => rfl
  | cons c rest ih =>
    have hc : ¬c = sep := fun e => h (e ▸ List.mem_cons_self c rest)
    have hr : sep ∉ rest := fun m => h (List.mem_cons_of_mem c m)
    simp only [splitChar, if_neg hc, ih hr]

theorem splitChar_length_of_mem (sep : Char) (l : List Char) (h : sep ∈ l) :
    2 ≤ (splitChar sep l).length := by
  induction l with
  | nil => cases h
  | cons c rest ih =>
    by_cases hc : c = sep
    · subst hc
      have h1 : splitChar c (c :: rest) = [] :: splitChar c rest := by
        simp [splitChar]
      rw [h1, List.length_cons]
      have := List.length_pos.mpr (splitChar_ne_nil c rest)
      omega
    · have hm : sep ∈ rest := by
        rcases List.mem_cons.mp h with h1 | h2
        · exact absurd h1.symm hc
        · exact h2
      rcases hr : splitChar sep rest with _ | ⟨a, t⟩
      · exact absurd hr (splitChar_ne_nil sep rest)
      · have := ih hm
        rw [hr] at this
        simp only [splitChar, if_neg hc, hr, List.length_cons]
        simpa using this

theorem headD_splitChar (sep : Char) (l : List Char) :
    (splitChar sep l).headD [] = l.takeWhile (· != sep) := by
  induction l with
  | nil => rfl
  | cons c rest ih =>
    by_cases hc : c = sep
    · subst hc
      simp [splitChar, List.takeWhile_cons]
    · rcases hr : splitChar sep rest with _ | ⟨a, t⟩
      · exact absurd hr (splitChar_ne_nil sep rest)
      · have ha : a = rest.takeWhile (· != sep) := by
          rw [← ih, hr]; rfl
        simp [splitChar, if_neg hc, hr, List.takeWhile_cons, hc, ha]

theorem takeWhile_append_all {p : Char → Bool} {l₁ l₂ : List Char}
    (h : ∀ a ∈ l₁, p a) : (l₁ ++ l₂).takeWhile p = l₁ ++ l₂.takeWhile p := by
  induction l₁ with
  | nil => rfl
  | cons a t ih =>
    have ht := ih fun x hx => h x (List.mem_cons_of_mem a hx)
    simp [List.takeWhile_cons, h a (List.mem_cons_self a t), ht]

theorem takeWhile_append_stop {p : Char → Bool} {l₁ l₂ : List Char}
    (h : ∃ a ∈ l₁, ¬p a) : (l₁ ++ l₂).takeWhile p = l₁.takeWhile p := by
  induction l₁ with
  | nil => rcases h with ⟨a, ha, _⟩; cases ha
  | cons a t ih =>
    by_cases hp : p a
    · simp only [List.cons_append, List.takeWhile_cons, hp, if_true]
      rw [ih]
      rcases h with ⟨b, hb, hnb⟩
      rcases List.mem_cons.mp hb with h1 | h2
      · exact absurd (h1 ▸ hp) hnb
      · exact ⟨b, h2, hnb⟩
    · simp [List.takeWhile_cons, hp]

theorem takeWhile_all {p : Char → Bool} {l : List Char} (h : ∀ a ∈ l, p a) :
    l.takeWhile p = l := by
  have h2 := @takeWhile_append_all p l [] h
  simpa using h2

theorem getLastD_cons_of_ne_nil {α : Type} {t : List α} (ht : t ≠ []) (x y : α) :
    (x :: t).getLastD y = t.getLastD y := by
  cases t with
  | nil => exact absurd rfl ht
  | cons b t2 => simp [List.getLastD_cons]

theorem getLastD_splitChar (sep : Char) (l : List Char) :
    (splitChar sep l).getLastD [] = (l.reverse.takeWhile (· != sep)).reverse := by
  induction l with
  | nil => rfl
  | cons c rest ih =>
    by_cases hc : c = sep
    · subst hc
      have hL : (splitChar c (c :: rest)).getLastD [] =
          (splitChar c rest).getLastD [] := by
        have h1 : splitChar c (c :: rest) = [] :: splitChar c rest := by
          simp [splitChar]
        rw [h1, getLastD_cons_of_ne_nil (splitChar_ne_nil c rest)]
      rw [hL, ih, List.reverse_cons]
      by_cases hm : c ∈ rest
      · rw [takeWhile_append_stop ⟨c, List.mem_reverse.mpr hm, by simp⟩]
      · have hall : ∀ a ∈ rest.reverse, (a != c) = true := by
          intro a ha
          have : a ≠ c := ne_of_mem_of_not_mem (List.mem_reverse.mp ha) hm
          simpa using this
        rw [takeWhile_append_all hall, takeWhile_all hall]
        simp [List.takeWhile_cons]
    · rcases hr : splitChar sep rest with _ | ⟨a, t⟩
      · exact absurd hr (splitChar_ne_nil sep rest)
      · by_cases hm : sep ∈ rest
        · have hlen := splitChar_length_of_mem sep rest hm
          rw [hr] at hlen
          have ht : t ≠ [] := by
            cases t
            · simp at hlen
            · simp
          have hL : (splitChar sep (c :: rest)).getLastD [] =
              (splitChar sep rest).getLastD [] := by
            simp only [splitChar, if_neg hc, hr]
            rw [getLastD_cons_of_ne_nil ht, getLastD_cons_of_ne_nil ht]
          rw [hL, ih, List.reverse_cons,
            takeWhile_append_stop ⟨sep, List.mem_reverse.mpr hm, by simp⟩]
        · have hrr := splitChar_of_not_mem sep rest hm
          have hall : ∀ x ∈ rest.reverse ++ [c], (x != sep) = true := by
            intro x hx
            rcases List.mem_append.mp hx with h1 | h2
            · have : x ≠ sep := ne_of_mem_of_not_mem (List.mem_reverse.mp h1) hm
              simpa using this
            · have hxc : x = c := List.mem_singleton.mp h2
              subst hxc
              simpa using hc
          have h1 : splitChar sep (c :: rest) = [c :: rest] := by
            simp only [splitChar, if_neg hc, hrr]
          rw [h1, List.reverse_cons, takeWhile_all hall]
          simp

theorem splitLast_eq_afterLastChar (sep : Char) (s : String) :
    splitLast sep s = afterLastChar sep s := by
  unfold splitLast afterLastChar
  rw [getLastD_splitChar]

theorem splitHead_eq_beforeFirstChar (sep : Char) (s : String) :
    splitHead sep s = beforeFirstChar sep s := by
  unfold splitHead beforeFirstChar
  rw [headD_splitChar]

theorem containerFromImage_eq_spec (image : String) :
    containerFromImage image = spec_containerFromImage image := by
  simp only [containerFromImage, spec_containerFromImage, splitLast_eq_afterLastChar,
    splitHead_eq_beforeFirstChar]

theorem dropWhile_cons_neg {p : Char → Bool} (l : List Char) (h : l.dropWhile p ≠ []) :
    ∃ d ds, l.dropWhile p = d :: ds ∧ p d = false := by
  induction l with
  | nil => simp at h
  | cons a t ih =>
    by_cases hp : p a
    · rw [List.dropWhile_cons_of_pos hp] at h ⊢
      exact ih h
    · refine ⟨a, t, List.dropWhile_cons_of_neg hp, ?_⟩
      simpa using hp

theorem afterLastChar_decomp (sep : Char) (s : String) (h : sep ∈ s.toList) :
    ∃ pre : String, s = pre ++ String.mk [sep] ++ afterLastChar sep s := by
  have hne : s.toList.reverse.dropWhile (· != sep) ≠ [] := by
    intro h0
    have h1 := List.dropWhile_eq_nil_iff.mp h0 sep (List.mem_reverse.mpr h)
    simp at h1
  obtain ⟨d, ds, hd, hpd⟩ := dropWhile_cons_neg s.toList.reverse hne
  have hdsep : d = sep := by simpa using hpd
  rw [hdsep] at hd
  refine ⟨String.mk ds.reverse, String.ext ?_⟩
  have hsplit : s.toList.reverse.takeWhile (· != sep) ++ (sep :: ds) = s.toList.reverse := by
    rw [← hd]
    exact List.takeWhile_append_dropWhile _ _
  have hl := congrArg List.reverse hsplit
  simp only [List.reverse_append, List.reverse_cons, List.reverse_reverse,
    List.append_assoc] at hl
  simp only [String.data_append, afterLastChar, List.append_assoc]
  exact hl.symm

theorem afterLastChar_not_mem (sep : Char) (s : String) :
    sep ∉ (afterLastChar sep s).toList := by
  intro hx
  have hx2 : sep ∈ s.toList.reverse.takeWhile (· != sep) := by
    simpa [afterLastChar, List.mem_reverse] using hx
  have := List.mem_takeWhile_imp hx2
  simp at this

theorem resolveContainer_fallback (image : String) (metadata : Option Json)
    (h : hasTruthyCtn metadata = false) :
    resolveContainer image metadata = Json.str (containerFromImage image) := by
  rcases metadata with _ | j
  · rfl
  · rcases j with _ | b | n | s | xs | m
    · rfl
    · rfl
    · rfl
    · rfl
    · rfl
    · simp only [resolveContainer, hasTruthyCtn] at h ⊢
      cases hg : dictGet m "ctn_names" with
      | none => simp [hg]
      | some v =>
        rw [hg] at h
        have h2 : truthy v = false := h
        simp [hg, h2]

/-- C4: for every event with status "new", an explicit non-empty string
`metadata.ctn_names` is used verbatim as the container, regardless of the
image; otherwise (no truthy `ctn_names`) the container is the image's path
segment after the last `/` with any `:`-delimited tag suffix stripped,
`"unknown"` when that result is empty (the specification-side derivation
`spec_containerFromImage`). -/
theorem C4_container_resolution (image : String) (metadata : Option Json) :
    (∀ m s, metadata = some (Json.obj m) → dictGet m "ctn_names" = some (Json.str s) →
      s ≠ "" → resolveContainer image metadata = Json.str s) ∧
    (hasTruthyCtn metadata = false →
      resolveContainer image metadata = Json.str (spec_containerFromImage image)) := by
  constructor
  · intro m s hm hg hs
    subst hm
    simp [resolveContainer, hg, truthy, hs]
  · intro h
    rw [resolveContainer_fallback image metadata h, containerFromImage_eq_spec]

/-- Witness for C4 on concrete inputs: an explicit container name wins over
the image, and without metadata the derivation applies (and computes
`"myapp"` on the spec's example image). -/
theorem C4_witness :
    resolveContainer "lib/nginx:1.25" (some (Json.obj [("ctn_names", Json.str "my-container")])) =
      Json.str "my-container" ∧
    resolveContainer "registry.example.com/myapp:v2" none =
      Json.str (spec_containerFromImage "registry.example.com/myapp:v2") ∧
    spec_containerFromImage "registry.example.com/myapp:v2" = "myapp" :=
  ⟨(C4_container_resolution "lib/nginx:1.25"
      (some (Json.obj [("ctn_names", Json.str "my-container")]))).1
      [("ctn_names", Json.str "my-container")] "my-container" rfl rfl (by decide),
   (C4_container_resolution "registry.example.com/myapp:v2" none).2 rfl,
   by decide⟩

/-- C5: for every event with status "new", when the image contains a `:`
the resolved version is the portion after the last `:` (the image
decomposes as `pre ++ ":" ++ version` with no `:` in `version`), and when
it contains no `:` the version is the literal `"unknown"`. -/
theorem C5_version_resolution (image : String) :
    (Char.ofNat 58 ∈ image.toList →
      (∃ pre : String, image = pre ++ ":" ++ resolveVersion image) ∧
        Char.ofNat 58 ∉ (resolveVersion image).toList) ∧
    (Char.ofNat 58 ∉ image.toList → resolveVersion image = "unknown") := by
  constructor
  · intro h
    have hv : resolveVersion image = afterLastChar (Char.ofNat 58) image := by
      unfold resolveVersion
      rw [if_pos h, splitLast_eq_afterLastChar]
    have hcolon : (":" : String) = String.mk [Char.ofNat 58] := by decide
    rw [hv, hcolon]
    exact ⟨afterLastChar_decomp _ _ h, afterLastChar_not_mem _ _⟩
  · intro h
    unfold resolveVersion
    rw [if_neg h]

/-- Witness for C5 on concrete inputs: `"lib/nginx:1.25"` decomposes around
its last colon, and `"busybox"` has version `"unknown"`. -/
theorem C5_witness :
    ((∃ pre : String, "lib/nginx:1.25" = pre ++ ":" ++ resolveVersion "lib/nginx:1.25") ∧
      Char.ofNat 58 ∉ (resolveVersion "lib/nginx:1.25").toList) ∧
    resolveVersion "busybox" = "unknown" :=
  ⟨(C5_version_resolution "lib/nginx:1.25").1 (by decide),
   (C5_version_resolution "busybox").2 (by decide)⟩

theorem doPOST_new_spec (cfg : Config) (fields : List (String × Json))
    (dbus : Except String Unit) (image : String)
    (hstatus : statusIsNew fields = true)
    (himage : (dictGet fields "image").getD (Json.str "") = Json.str image) :
    doPOST cfg (some (Json.obj fields)) dbus =
      (match dbus with
       | Except.ok _ => Outcome.response 200 "OK"
           ⟨[mkNotifyCall cfg "Docker Image Update" (newBody image (dictGet fields "metadata"))],
            [sentLog cfg "Docker Image Update" (newBody image (dictGet fields "metadata"))], []⟩
       | Except.error e => Outcome.response 200 "OK"
           ⟨[mkNotifyCall cfg "Docker Image Update" (newBody image (dictGet fields "metadata"))],
            [], ["D‑Bus error: " ++ e]⟩) := by
  have h1 : doPOST cfg (some (Json.obj fields)) dbus = handleNew cfg fields dbus := by
    simp [doPOST, hstatus]
  rw [h1]
  unfold handleNew
  rw [himage]

theorem exists_image_str (fields : List (String × Json))
    (himg : ∀ v, dictGet fields "image" = some v → ∃ s, v = Json.str s) :
    ∃ image, (dictGet fields "image").getD (Json.str "") = Json.str image := by
  cases hg : dictGet fields "image" with
  | none => exact ⟨"", rfl⟩
  | some v =>
    obtain ⟨s, hv⟩ := himg v hg
    exact ⟨s, by simp [hv]⟩

theorem doPOST_ignored (cfg : Config) (fields : List (String × Json))
    (dbus : Except String Unit) (hstatus : statusIsNew fields = false) :
    doPOST cfg (some (Json.obj fields)) dbus =
      Outcome.response 200 "OK" ⟨[], ["Ignored non‑new status"], []⟩ := by
  simp [doPOST, hstatus]

/-- C1 fails as stated: the payload `{"status": "new", "image": 5}` parses
as JSON and its status field equals `"new"`, yet no notification dispatch
occurs — `do_POST` raises an uncaught `AttributeError` at
`image.split("/")` before reaching `send_notification`. -/
theorem C1_counterexample :
    statusIsNew [("status", Json.str "new"), ("image", Json.num 5)] = true ∧
    outDispatched (doPOST defaultConfig
      (some (Json.obj [("status", Json.str "new"), ("image", Json.num 5)]))
      (Except.ok ())) = [] ∧
    isCrash (doPOST defaultConfig
      (some (Json.obj [("status", Json.str "new"), ("image", Json.num 5)]))
      (Except.ok ())) = true := by
  refine ⟨rfl, rfl, rfl⟩

/-- C1 amended: for every POST body that parses as a JSON object whose
`image` field, when present, is a string, a notification dispatch occurs
iff the status field equals the string `"new"`; for every other status
value (or a missing status) no dispatch occurs and the event is only
logged (one stdout line, response `200`/`"OK"`). -/
theorem C1_dispatch_iff_new (cfg : Config) (fields : List (String × Json))
    (dbus : Except String Unit)
    (himg : ∀ v, dictGet fields "image" = some v → ∃ s, v = Json.str s) :
    (outDispatched (doPOST cfg (some (Json.obj fields)) dbus) ≠ [] ↔
      statusIsNew fields = true) ∧
    (statusIsNew fields = false →
      doPOST cfg (some (Json.obj fields)) dbus =
        Outcome.response 200 "OK" ⟨[], ["Ignored non‑new status"], []⟩) := by
  by_cases hs : statusIsNew fields = true
  · obtain ⟨image, himage⟩ := exists_image_str fields himg
    rw [doPOST_new_spec cfg fields dbus image hs himage]
    constructor
    · cases dbus <;> simp [outDispatched, hs]
    · intro hf
      rw [hs] at hf
      cases hf
  · have hs2 : statusIsNew fields = false := by simpa using hs
    rw [doPOST_ignored cfg fields dbus hs2]
    constructor
    · simp [outDispatched, hs2]
    · intro _
      rfl

/-- Witness for C1 amended at concrete inputs: a status of `"old"`
produces no dispatch and only the "ignored" log line. -/
theorem C1_witness :
    (outDispatched (doPOST defaultConfig
        (some (Json.obj [("status", Json.str "old")])) (Except.ok ())) ≠ [] ↔
      statusIsNew [("status", Json.str "old")] = true) ∧
    (statusIsNew [("status", Json.str "old")] = false →
      doPOST defaultConfig (some (Json.obj [("status", Json.str "old")])) (Except.ok ()) =
        Outcome.response 200 "OK" ⟨[], ["Ignored non‑new status"], []⟩) :=
  C1_dispatch_iff_new defaultConfig [("status", Json.str "old")] (Except.ok ())
    (fun v hv => by cases hv)

/-- C2: for every POST body that does not parse as valid JSON, the handler
responds `400` with body exactly `"Invalid JSON"` and performs no further
action: no dispatch and no log output. -/
theorem C2_invalid_json (cfg : Config) (dbus : Except String Unit) :
    doPOST cfg none dbus = Outcome.response 400 "Invalid JSON" ⟨[], [], []⟩ :=
  rfl

/-- C3 fails as stated: the body `"[]"` parses as valid JSON (an empty
array), yet the handler does not respond `200`/`"OK"` — `payload.get`
raises an uncaught `AttributeError` on the non-dict payload and no
response is sent. -/
theorem C3_counterexample :
    respCodeBody (doPOST defaultConfig (some (Json.arr [])) (Except.ok ())) ≠
      some (200, "OK") ∧
    isCrash (doPOST defaultConfig (some (Json.arr [])) (Except.ok ())) = true := by
  refine ⟨by decide, rfl⟩

/-- C3 amended: for every POST body that parses as a JSON object whose
`image` field, when present, is a string, the handler responds `200` with
body exactly `"OK"` (including ignored events). -/
theorem C3_ok_for_objects (cfg : Config) (fields : List (String × Json))
    (dbus : Except String Unit)
    (himg : ∀ v, dictGet fields "image" = some v → ∃ s, v = Json.str s) :
    respCodeBody (doPOST cfg (some (Json.obj fields)) dbus) = some (200, "OK") := by
  by_cases hs : statusIsNew fields = true
  · obtain ⟨image, himage⟩ := exists_image_str fields himg
    rw [doPOST_new_spec cfg fields dbus image hs himage]
    cases dbus <;> rfl
  · have hs2 : statusIsNew fields = false := by simpa using hs
    rw [doPOST_ignored cfg fields dbus hs2]
    rfl

/-- Witness for C3 amended: a `"new"` event and an ignored event both get
`200`/`"OK"`. -/
theorem C3_witness :
    respCodeBody (doPOST defaultConfig
      (some (Json.obj [("status", Json.str "new"), ("image", Json.str "lib/nginx:1.25")]))
      (Except.ok ())) = some (200, "OK") ∧
    respCodeBody (doPOST defaultConfig
      (some (Json.obj [("status", Json.num 3)])) (Except.error "no bus")) = some (200, "OK") :=
  ⟨C3_ok_for_objects defaultConfig
      [("status", Json.str "new"), ("image", Json.str "lib/nginx:1.25")] (Except.ok ())
      (fun v hv => ⟨"lib/nginx:1.25", by cases hv; rfl⟩),
   C3_ok_for_objects defaultConfig [("status", Json.num 3)] (Except.error "no bus")
      (fun v hv => by cases hv)⟩

/-- C6: for every event with status "new" (image field a string), the
dispatched notification has summary exactly `"Docker Image Update"` and
body exactly the template
`"Update Available for Container: {container} Image -> new version: {version}"`
instantiated with the resolved container and version. -/
theorem C6_notification_format (cfg : Config) (fields : List (String × Json))
    (dbus : Except String Unit) (image : String)
    (hstatus : statusIsNew fields = true)
    (himage : (dictGet fields "image").getD (Json.str "") = Json.str image) :
    outDispatched (doPOST cfg (some (Json.obj fields)) dbus) =
      [mkNotifyCall cfg "Docker Image Update"
        ("Update Available for Container: " ++
          pyStr (resolveContainer image (dictGet fields "metadata")) ++
          " Image -> new version: " ++ resolveVersion image)] := by
  rw [doPOST_new_spec cfg fields dbus image hstatus himage]
  cases dbus <;> rfl

/-- Witness for C6: the spec's end-to-end example — posting
`{"status":"new","image":"lib/nginx:1.25"}` dispatches summary
`"Docker Image Update"` and body
`"Update Available for Container: nginx Image -> new version: 1.25"`. -/
theorem C6_witness :
    outDispatched (doPOST defaultConfig
      (some (Json.obj [("status", Json.str "new"), ("image", Json.str "lib/nginx:1.25")]))
      (Except.ok ())) =
      [mkNotifyCall defaultConfig "Docker Image Update"
        "Update Available for Container: nginx Image -> new version: 1.25"] := by
  rw [C6_notification_format defaultConfig
    [("status", Json.str "new"), ("image", Json.str "lib/nginx:1.25")]
    (Except.ok ()) "lib/nginx:1.25" rfl rfl]
  decide

/-- C7: for every event with status "new" (image field a string), a
failing dispatch is caught: the exception is logged to stderr as
`"D‑Bus error: ..."`, the handler does not crash, and the HTTP response
(code and body) is identical to the success path, `200`/`"OK"`. -/
theorem C7_dispatch_failure_contained (cfg : Config) (fields : List (String × Json))
    (e : String) (image : String)
    (hstatus : statusIsNew fields = true)
    (himage : (dictGet fields "image").getD (Json.str "") = Json.str image) :
    respCodeBody (doPOST cfg (some (Json.obj fields)) (Except.error e)) =
      some (200, "OK") ∧
    respCodeBody (doPOST cfg (some (Json.obj fields)) (Except.error e)) =
      respCodeBody (doPOST cfg (some (Json.obj fields)) (Except.ok ())) ∧
    isCrash (doPOST cfg (some (Json.obj fields)) (Except.error e)) = false ∧
    outStderr (doPOST cfg (some (Json.obj fields)) (Except.error e)) =
      ["D‑Bus error: " ++ e] := by
  rw [doPOST_new_spec cfg fields (Except.error e) image hstatus himage,
    doPOST_new_spec cfg fields (Except.ok ()) image hstatus himage]
  exact ⟨rfl, rfl, rfl, rfl⟩

/-- Witness for C7: with the notification service unreachable, the nginx
example still answers `200`/`"OK"` and logs the error to stderr. -/
theorem C7_witness :
    respCodeBody (doPOST defaultConfig
      (some (Json.obj [("status", Json.str "new"), ("image", Json.str "lib/nginx:1.25")]))
      (Except.error "org.freedesktop.DBus.Error.ServiceUnknown")) = some (200, "OK") ∧
    respCodeBody (doPOST defaultConfig
      (some (Json.obj [("status", Json.str "new"), ("image", Json.str "lib/nginx:1.25")]))
      (Except.error "org.freedesktop.DBus.Error.ServiceUnknown")) =
      respCodeBody (doPOST defaultConfig
        (some (Json.obj [("status", Json.str "new"), ("image", Json.str "lib/nginx:1.25")]))
        (Except.ok ())) ∧
    isCrash (doPOST defaultConfig
      (some (Json.obj [("status", Json.str "new"), ("image", Json.str "lib/nginx:1.25")]))
      (Except.error "org.freedesktop.DBus.Error.ServiceUnknown")) = false ∧
    outStderr (doPOST defaultConfig
      (some (Json.obj [("status", Json.str "new"), ("image", Json.str "lib/nginx:1.25")]))
      (Except.error "org.freedesktop.DBus.Error.ServiceUnknown")) =
      ["D‑Bus error: " ++ "org.freedesktop.DBus.Error.ServiceUnknown"] :=
  C7_dispatch_failure_contained defaultConfig
    [("status", Json.str "new"), ("image", Json.str "lib/nginx:1.25")]
    "org.freedesktop.DBus.Error.ServiceUnknown" "lib/nginx:1.25" rfl rfl

/-- C8: in the hint set built by `send_notification`, the `sound-name`
hint is present iff the configured sound name is truthy (non-`None`,
non-empty) and the `sound-file` hint is present iff the configured sound
file is truthy, each independently of the other — when both are
configured both hints are present, after the fixed `transient`, `urgency`
and `desktop-entry` hints. -/
theorem C8_sound_hints_independent (urg : Nat) (de : String)
    (sn sf : Option String) :
    buildHints urg de sn sf =
      [("transient", HintValue.bool false), ("urgency", HintValue.byte urg),
       ("desktop-entry", HintValue.str de)] ++
      (if strTruthy sn = true then [("sound-name", HintValue.str (sn.getD ""))] else []) ++
      (if strTruthy sf = true then [("sound-file", HintValue.str (sf.getD ""))] else []) ∧
    (("sound-name" ∈ (buildHints urg de sn sf).map Prod.fst) ↔ strTruthy sn = true) ∧
    (("sound-file" ∈ (buildHints urg de sn sf).map Prod.fst) ↔ strTruthy sf = true) := by
  have hb : buildHints urg de sn sf =
      [("transient", HintValue.bool false), ("urgency", HintValue.byte urg),
       ("desktop-entry", HintValue.str de)] ++
      (if strTruthy sn = true then [("sound-name", HintValue.str (sn.getD ""))] else []) ++
      (if strTruthy sf = true then [("sound-file", HintValue.str (sf.getD ""))] else []) := by
    unfold buildHints
    cases sn with
    | none => cases sf with
      | none => rfl
      | some s2 => by_cases h2 : s2 = "" <;> simp [strTruthy, h2]
    | some s1 => cases sf with
      | none => by_cases h1 : s1 = "" <;> simp [strTruthy, h1]
      | some s2 =>
        by_cases h1 : s1 = "" <;> by_cases h2 : s2 = "" <;>
          simp [strTruthy, h1, h2]
  refine ⟨hb, ?_, ?_⟩
  · rw [hb]
    cases hsn : strTruthy sn <;> cases hsf : strTruthy sf <;> simp
  · rw [hb]
    cases hsn : strTruthy sn <;> cases hsf : strTruthy sf <;> simp

/-- C9: for every payload with status "new", no `image` field and no
usable metadata container name, the image defaults to the empty string,
so the notification is dispatched with container `"unknown"` and version
`"unknown"`. -/
theorem C9_absent_image (cfg : Config) (fields : List (String × Json))
    (dbus : Except String Unit)
    (hstatus : statusIsNew fields = true)
    (himage : dictGet fields "image" = none)
    (hmeta : hasTruthyCtn (dictGet fields "metadata") = false) :
    outDispatched (doPOST cfg (some (Json.obj fields)) dbus) =
      [mkNotifyCall cfg "Docker Image Update"
        "Update Available for Container: unknown Image -> new version: unknown"] := by
  have h0 : (dictGet fields "image").getD (Json.str "") = Json.str "" := by
    rw [himage]
    rfl
  rw [doPOST_new_spec cfg fields dbus "" hstatus h0]
  have hb : newBody "" (dictGet fields "metadata") =
      "Update Available for Container: unknown Image -> new version: unknown" := by
    unfold newBody
    rw [resolveContainer_fallback "" (dictGet fields "metadata") hmeta]
    decide
  rw [hb]
  cases dbus <;> rfl

/-- Witness for C9: posting `{"status":"new"}` dispatches the
unknown/unknown notification. -/
theorem C9_witness :
    outDispatched (doPOST defaultConfig (some (Json.obj [("status", Json.str "new")]))
      (Except.ok ())) =
      [mkNotifyCall defaultConfig "Docker Image Update"
        "Update Available for Container: unknown Image -> new version: unknown"] :=
  C9_absent_image defaultConfig [("status", Json.str "new")] (Except.ok ()) rfl rfl rfl

/-- C10: for every payload with status "new" (image field a string) whose
metadata is present but not an object, or is an object without a truthy
`ctn_names` (missing or empty), the handler does not fail and the
container is derived from the image exactly as when metadata is absent. -/
theorem C10_metadata_fallback (cfg : Config) (fields : List (String × Json))
    (dbus : Except String Unit) (image : String)
    (hstatus : statusIsNew fields = true)
    (himage : (dictGet fields "image").getD (Json.str "") = Json.str image)
    (hmeta : hasTruthyCtn (dictGet fields "metadata") = false) :
    isCrash (doPOST cfg (some (Json.obj fields)) dbus) = false ∧
    resolveContainer image (dictGet fields "metadata") = resolveContainer image none ∧
    outDispatched (doPOST cfg (some (Json.obj fields)) dbus) =
      [mkNotifyCall cfg "Docker Image Update" (newBody image none)] := by
  have hc : resolveContainer image (dictGet fields "metadata") = resolveContainer image none := by
    rw [resolveContainer_fallback image (dictGet fields "metadata") hmeta]
    rfl
  have hb : newBody image (dictGet fields "metadata") = newBody image none := by
    unfold newBody
    rw [hc]
  refine ⟨?_, hc, ?_⟩ <;>
    rw [doPOST_new_spec cfg fields dbus image hstatus himage] <;>
    rw [hb] <;>
    cases dbus <;> rfl

/-- Witness for C10: a string-valued metadata field (not a JSON object)
does not crash the handler and falls back to the image-derived name. -/
theorem C10_witness :
    isCrash (doPOST defaultConfig
      (some (Json.obj [("status", Json.str "new"), ("image", Json.str "lib/nginx:1.25"),
        ("metadata", Json.str "oops")])) (Except.ok ())) = false ∧
    resolveContainer "lib/nginx:1.25"
      (dictGet [("status", Json.str "new"), ("image", Json.str "lib/nginx:1.25"),
        ("metadata", Json.str "oops")] "metadata") =
      resolveContainer "lib/nginx:1.25" none ∧
    outDispatched (doPOST defaultConfig
      (some (Json.obj [("status", Json.str "new"), ("image", Json.str "lib/nginx:1.25"),
        ("metadata", Json.str "oops")])) (Except.ok ())) =
      [mkNotifyCall defaultConfig "Docker Image Update" (newBody "lib/nginx:1.25" none)] :=
  C10_metadata_fallback defaultConfig
    [("status", Json.str "new"), ("image", Json.str "lib/nginx:1.25"),
      ("metadata", Json.str "oops")]
    (Except.ok ()) "lib/nginx:1.25" rfl rfl rfl
